import Mathlib

/-!
Verification development for the Hypertable coordination service and
DFS broker sources: the CLOSE request handler of the DFS broker, the
Hyperspace client callback interfaces, the DestroySession request
handler, and the session / lock management contracts of the master.
Each definition is a shallow embedding of the corresponding C++ code
under src/, or, where the deciding code is not under src/, a model
built from the specification (marked in its doc comment).
-/

/-- CommEvent models the fields of the AsyncComm Event object used by
RequestHandlerClose::run: messageLen (a uint32 byte count) and the
message byte buffer (each entry one byte). -/
structure CommEvent where
  messageLen : Nat
  message : List Nat
deriving Repr, DecidableEq

/-- remainingOf embeds the size_t expression
`m_event_ptr->messageLen - sizeof(int16_t)` of RequestHandlerClose.cc
line 38: unsigned subtraction of 2 wrapping modulo 2^64. -/
def remainingOf (messageLen : Nat) : Nat :=
  (messageLen + 2 ^ 64 - 2) % 2 ^ 64

/-- Modelled from the spec: Serialization::decode_int lives in
AsyncComm/Serialization, which is not under src/.  Per the spec the
handler "decodes a fixed-format request" and a decode failure occurs
when the request cannot be decoded; decode_int reads a little-endian
32-bit integer: it fails when the remaining-byte counter is below 4,
otherwise it consumes four bytes, advances the buffer and decreases
the counter by 4. -/
def decode_int (buf : List Nat) (remaining : Nat) :
    Option (Nat × List Nat × Nat) :=
  if remaining < 4 then none
  else some (buf.getD 0 0 % 256 + 256 * (buf.getD 1 0 % 256) +
      65536 * (buf.getD 2 0 % 256) + 16777216 * (buf.getD 3 0 % 256),
    buf.drop 4, remaining - 4)

/-- CloseOutcome is the observable outcome of one run of
RequestHandlerClose::run: either the broker close primitive
m_broker->close is invoked with the decoded fd, or a PROTOCOL_ERROR
reply carrying an error message is sent. -/
inductive CloseOutcome where
  | brokerClose (fd : Nat)
  | protocolError (msg : String)
deriving Repr, DecidableEq

/-- closeDispatch is the branch structure of RequestHandlerClose::run
on the decode_int result: success invokes m_broker->close on the
decoded fd, failure jumps to abort and replies with PROTOCOL_ERROR
and the literal message. -/
def closeDispatch : Option (Nat × List Nat × Nat) → CloseOutcome
  | some (fd, _, _) => CloseOutcome.brokerClose fd
  | none => CloseOutcome.protocolError "Encoding problem with CLOSE message"

/-- runClose embeds RequestHandlerClose::run (RequestHandlerClose.cc
lines 35-52): the remaining count is the wrapped subtraction of the
2-byte opcode, the decode pointer starts 2 bytes into the message,
and the outcome follows the decode_int result. -/
def runClose (ev : CommEvent) : CloseOutcome :=
  closeDispatch (decode_int (ev.message.drop 2) (remainingOf ev.messageLen))

/-- C1: whenever decode_int fails on the bytes following the 2-byte
opcode, RequestHandlerClose::run replies PROTOCOL_ERROR with the
literal message "Encoding problem with CLOSE message" and the broker
close primitive is not invoked on that run. -/
theorem runClose_decode_failure (ev : CommEvent)
    (h : decode_int (ev.message.drop 2) (remainingOf ev.messageLen) = none) :
    runClose ev = CloseOutcome.protocolError "Encoding problem with CLOSE message" ∧
    ∀ fd, runClose ev ≠ CloseOutcome.brokerClose fd := by
  unfold runClose
  rw [h]
  exact ⟨rfl, fun fd hfd => by simp [closeDispatch] at hfd⟩

/-- Witness for C1: a CLOSE message of 2 bytes (just the opcode) has
an empty payload, decode_int fails, and the handler replies
PROTOCOL_ERROR without invoking the close primitive. -/
theorem runClose_decode_failure_witness :
    runClose ⟨2, [0, 0]⟩ =
      CloseOutcome.protocolError "Encoding problem with CLOSE message" :=
  (runClose_decode_failure ⟨2, [0, 0]⟩ (by decide)).1

/-- C2: whenever decode_int succeeds on the bytes following the 2-byte
opcode, RequestHandlerClose::run invokes the broker close primitive
with exactly the decoded 32-bit file descriptor and produces no
PROTOCOL_ERROR reply on that run. -/
theorem runClose_decode_success (ev : CommEvent) (fd : Nat)
    (rest : List Nat) (rem : Nat)
    (h : decode_int (ev.message.drop 2) (remainingOf ev.messageLen) =
      some (fd, rest, rem)) :
    runClose ev = CloseOutcome.brokerClose fd ∧ fd < 2 ^ 32 ∧
    ∀ msg, runClose ev ≠ CloseOutcome.protocolError msg := by
  have hrun : runClose ev = CloseOutcome.brokerClose fd := by
    unfold runClose
    rw [h]
    rfl
  refine ⟨hrun, ?_, fun msg hmsg => by rw [hrun] at hmsg; simp at hmsg⟩
  unfold decode_int at h
  split at h
  · cases h
  · have hfd : fd = (ev.message.drop 2).getD 0 0 % 256 +
        256 * ((ev.message.drop 2).getD 1 0 % 256) +
        65536 * ((ev.message.drop 2).getD 2 0 % 256) +
        16777216 * ((ev.message.drop 2).getD 3 0 % 256) :=
      ((Prod.mk.injEq _ _ _ _).mp (Option.some.inj h)).1.symm
    have h0 : (ev.message.drop 2).getD 0 0 % 256 < 256 := Nat.mod_lt _ (by omega)
    have h1 : (ev.message.drop 2).getD 1 0 % 256 < 256 := Nat.mod_lt _ (by omega)
    have h2 : (ev.message.drop 2).getD 2 0 % 256 < 256 := Nat.mod_lt _ (by omega)
    have h3 : (ev.message.drop 2).getD 3 0 % 256 < 256 := Nat.mod_lt _ (by omega)
    omega

/-- Witness for C2: a 6-byte CLOSE message whose payload is the
little-endian encoding of 7 decodes successfully and the broker close
primitive receives fd 7. -/
theorem runClose_decode_success_witness :
    runClose ⟨6, [0, 0, 7, 0, 0, 0]⟩ = CloseOutcome.brokerClose 7 :=
  (runClose_decode_success ⟨6, [0, 0, 7, 0, 0, 0]⟩ 7 [] 0 (by decide)).1

/-- C3: on every run of the CLOSE handler exactly one of the two
reply paths is taken — the broker close primitive when decode
succeeds, or the PROTOCOL_ERROR reply when decode fails — and run
always produces an outcome, so a decode error never propagates past
the handler. -/
theorem runClose_exactly_one_path (ev : CommEvent) :
    ((decode_int (ev.message.drop 2) (remainingOf ev.messageLen)).isSome = true ∧
      (∃ fd, runClose ev = CloseOutcome.brokerClose fd) ∧
      ¬∃ msg, runClose ev = CloseOutcome.protocolError msg) ∨
    (decode_int (ev.message.drop 2) (remainingOf ev.messageLen) = none ∧
      runClose ev = CloseOutcome.protocolError "Encoding problem with CLOSE message" ∧
      ¬∃ fd, runClose ev = CloseOutcome.brokerClose fd) := by
  unfold runClose
  cases hdec : decode_int (ev.message.drop 2) (remainingOf ev.messageLen) with
  | none =>
      exact Or.inr ⟨rfl, rfl, fun ⟨fd, hfd⟩ => by simp [closeDispatch] at hfd⟩
  | some v =>
      obtain ⟨fd, rest, rem⟩ := v
      refine Or.inl ⟨rfl, ⟨fd, rfl⟩, fun ⟨msg, hmsg⟩ => ?_⟩
      simp [closeDispatch] at hmsg

/-- C9: the remaining byte count messageLen - sizeof(int16_t) is
computed in unsigned size_t arithmetic: for every uint32 messageLen
at least 2 it equals the true payload length messageLen - 2, but for
messageLen below 2 it wraps modulo 2^64 to a huge count that passes
the decode length guard, so messages shorter than the 2-byte opcode
are not rejected before the decode is attempted. -/
theorem remainingOf_wraps (len : Nat) (hlen : len < 2 ^ 32) :
    (2 ≤ len → remainingOf len = len - 2) ∧
    (len < 2 → remainingOf len = 2 ^ 64 - 2 + len ∧ 4 ≤ remainingOf len ∧
      ∀ payload : List Nat, (decode_int payload (remainingOf len)).isSome = true) := by
  constructor
  · intro h2
    unfold remainingOf
    have hsplit : len + 2 ^ 64 - 2 = (len - 2) + 2 ^ 64 := by omega
    rw [hsplit, Nat.add_mod_right]
    exact Nat.mod_eq_of_lt (by omega)
  · intro h2
    have hval : remainingOf len = 2 ^ 64 - 2 + len := by
      unfold remainingOf
      omega
    have hge : 4 ≤ remainingOf len := by
      rw [hval]
      omega
    refine ⟨hval, hge, fun payload => ?_⟩
    unfold decode_int
    rw [if_neg (by omega)]
    rfl

/-- Witness for C9: a 0-byte CLOSE message yields the wrapped
remaining count 2^64 - 2, which is at least 4 and so lets the decode
proceed instead of rejecting the short message. -/
theorem remainingOf_wraps_witness :
    remainingOf 0 = 2 ^ 64 - 2 + 0 ∧ 4 ≤ remainingOf 0 :=
  ⟨((remainingOf_wraps 0 (by norm_num)).2 (by norm_num)).1,
    ((remainingOf_wraps 0 (by norm_num)).2 (by norm_num)).2.1⟩

/-- C10: RequestHandlerClose::run is deterministic: two runs over
events with identical messageLen and identical message bytes produce
the same outcome. -/
theorem runClose_deterministic (e₁ e₂ : CommEvent)
    (hlen : e₁.messageLen = e₂.messageLen)
    (hmsg : e₁.message = e₂.message) :
    runClose e₁ = runClose e₂ := by
  cases e₁
  cases e₂
  simp only at hlen hmsg
  rw [hlen, hmsg]

/-- Witness for C10: two runs over the same concrete 6-byte CLOSE
message give equal outcomes. -/
theorem runClose_deterministic_witness :
    runClose ⟨6, [0, 0, 7, 0, 0, 0]⟩ = runClose ⟨6, [0, 0, 7, 0, 0, 0]⟩ :=
  runClose_deterministic ⟨6, [0, 0, 7, 0, 0, 0]⟩ ⟨6, [0, 0, 7, 0, 0, 0]⟩ rfl rfl

/-- NotificationEventKind enumerates the eight notification event
kinds of the tagged-event taxonomy: AttributeSet, AttributeDeleted,
ChildAdded, ChildRemoved, LockAcquired, LockReleased, LockGranted,
LockContended. -/
inductive NotificationEventKind where
  | attributeSet
  | attributeDeleted
  | childAdded
  | childRemoved
  | lockAcquired
  | lockReleased
  | lockGranted
  | lockContended
deriving Repr, DecidableEq

/-- methodFor embeds the dispatch interface of FileHandleCallback
(FileHandleCallback.h lines 31-36): the name of the virtual method the
class declares for an event kind, or none when the class declares no
method for that kind.  The class body declares exactly AttrSet,
AttrDel, ChildNodeAdded, ChildNodeRemoved, LockAcquired and
LockReleased. -/
def methodFor : NotificationEventKind → Option String
  | .attributeSet => some "AttrSet"
  | .attributeDeleted => some "AttrDel"
  | .childAdded => some "ChildNodeAdded"
  | .childRemoved => some "ChildNodeRemoved"
  | .lockAcquired => some "LockAcquired"
  | .lockReleased => some "LockReleased"
  | .lockGranted => none
  | .lockContended => none

/-- Counterexample for C4: FileHandleCallback declares no dispatch
method for the LockGranted event kind, so not every one of the eight
event kinds has a distinct dispatch method. -/
theorem methodFor_lockGranted_missing :
    methodFor NotificationEventKind.lockGranted = none ∧
    methodFor NotificationEventKind.lockContended = none := by
  decide

/-- C4 (amended): FileHandleCallback provides a distinct dispatch
method for exactly six of the eight event kinds — AttributeSet,
AttributeDeleted, ChildAdded, ChildRemoved, LockAcquired,
LockReleased — the six method names are pairwise distinct, and no
dispatch method exists for LockGranted or LockContended. -/
theorem methodFor_six_distinct :
    methodFor NotificationEventKind.attributeSet = some "AttrSet" ∧
    methodFor NotificationEventKind.attributeDeleted = some "AttrDel" ∧
    methodFor NotificationEventKind.childAdded = some "ChildNodeAdded" ∧
    methodFor NotificationEventKind.childRemoved = some "ChildNodeRemoved" ∧
    methodFor NotificationEventKind.lockAcquired = some "LockAcquired" ∧
    methodFor NotificationEventKind.lockReleased = some "LockReleased" ∧
    methodFor NotificationEventKind.lockGranted = none ∧
    methodFor NotificationEventKind.lockContended = none ∧
    List.Pairwise (· ≠ ·)
      ["AttrSet", "AttrDel", "ChildNodeAdded", "ChildNodeRemoved",
        "LockAcquired", "LockReleased"] := by
  decide

/-- RequestHandlerDestroySession embeds the handler class of
RequestHandlerDestroySession.h lines 32-43: its two data members, the
master pointer (modelled as an identifier) and the uint64 session id.
Its constructor initializes m_master and m_session_id from its two
arguments. -/
structure RequestHandlerDestroySession where
  m_master : Nat
  m_session_id : Nat
deriving Repr, DecidableEq

/-- construct embeds the C++ constructor
`RequestHandlerDestroySession(Master *master, uint64_t session_id)
: m_master(master), m_session_id(session_id) { }`. -/
def RequestHandlerDestroySession.construct (master : Nat)
    (session_id : Nat) : RequestHandlerDestroySession :=
  ⟨master, session_id⟩

/-- C7: constructing a RequestHandlerDestroySession with a master
pointer and a uint64 session id stores exactly those values unchanged
in m_master and m_session_id, so a later run() targets precisely the
decoded session id. -/
theorem destroySessionHandler_stores (master session_id : Nat)
    (hsid : session_id < 2 ^ 64) :
    (RequestHandlerDestroySession.construct master session_id).m_master =
      master ∧
    (RequestHandlerDestroySession.construct master session_id).m_session_id =
      session_id :=
  ⟨rfl, rfl⟩

/-- Witness for C7: constructing with master 1 and session id 42
stores exactly those two values. -/
theorem destroySessionHandler_stores_witness :
    (RequestHandlerDestroySession.construct 1 42).m_master = 1 ∧
    (RequestHandlerDestroySession.construct 1 42).m_session_id = 42 :=
  destroySessionHandler_stores 1 42 (by norm_num)

/-- Modelled from the spec: the HandleCallback base class
(Hyperspace/HandleCallback.h, not under src/) registers the
event-interest mask a Handle supplies at open time; its constructor
stores the mask. -/
structure HandleCallback where
  eventMask : Nat
deriving Repr, DecidableEq

/-- FileHandleCallback embeds the class of FileHandleCallback.h line
30: its constructor `FileHandleCallback(uint32_t eventMask) :
HandleCallback(eventMask)` forwards the mask to the HandleCallback
base unchanged. -/
structure FileHandleCallback extends HandleCallback
deriving Repr, DecidableEq

/-- constructFHC embeds the C++ constructor of FileHandleCallback:
the base subobject is constructed from the given mask. -/
def FileHandleCallback.constructFHC (eventMask : Nat) : FileHandleCallback :=
  ⟨⟨eventMask⟩⟩

/-- C8: for every 32-bit mask m, constructing a FileHandleCallback
with event mask m passes m unchanged to the HandleCallback base, so
the registered event-interest mask equals the caller's mask. -/
theorem fileHandleCallback_mask (m : Nat) (hm : m < 2 ^ 32) :
    (FileHandleCallback.constructFHC m).toHandleCallback.eventMask = m :=
  rfl

/-- Witness for C8: constructing with mask 5 registers mask 5. -/
theorem fileHandleCallback_mask_witness :
    (FileHandleCallback.constructFHC 5).toHandleCallback.eventMask = 5 :=
  fileHandleCallback_mask 5 (by norm_num)

/-- LockMode is the lock mode of the spec's LockManager: EXCLUSIVE or
SHARED. -/
inductive LockMode where
  | exclusive
  | shared
deriving Repr, DecidableEq

/-- TryLockResult is the result of the spec's TryLock operation:
GRANTED, PENDING or DENIED. -/
inductive TryLockResult where
  | granted
  | pending
  | denied
deriving Repr, DecidableEq

/-- LockState is the per-node lock state of the spec's LockManager: a
current holder-set (handle ids with the mode each holds) and an
ordered FIFO wait-queue of (handle, requested-mode). -/
structure LockState where
  holders : List (Nat × LockMode)
  waiters : List (Nat × LockMode)
deriving Repr, DecidableEq

/-- unlockedLock is the UNLOCKED state: no holders, no waiters. -/
def unlockedLock : LockState :=
  ⟨[], []⟩

/-- allShared tests whether every holder holds SHARED mode. -/
def allShared (hs : List (Nat × LockMode)) : Bool :=
  hs.all fun p => p.2 == LockMode.shared

/-- holdsLock tests whether handle h is in the holder-set. -/
def holdsLock (s : LockState) (h : Nat) : Bool :=
  s.holders.any fun p => p.1 == h

/-- Modelled from the spec: the LockManager code is not under src/.
TryLock(handle, mode) is GRANTED if the holder-set is empty, or if
mode is SHARED and the holder-set is all-SHARED; a conflicting
request is enqueued FIFO and returns PENDING; DENIED is returned for
a malformed request (the handle already holds the lock). -/
def tryLock (s : LockState) (h : Nat) (m : LockMode) :
    TryLockResult × LockState :=
  if holdsLock s h then (TryLockResult.denied, s)
  else if s.holders.isEmpty then
    (TryLockResult.granted, { s with holders := [(h, m)] })
  else if m == LockMode.shared && allShared s.holders then
    (TryLockResult.granted,
      { s with holders := s.holders ++ [(h, LockMode.shared)] })
  else (TryLockResult.pending, { s with waiters := s.waiters ++ [(h, m)] })

/-- grantWaiters pops the wait-queue head(s) when the holder-set
empties: all contiguous SHARED requests at the queue head are granted
together; a single EXCLUSIVE request at the head is granted alone.
Returns the new holder-set and the rest of the wait-queue. -/
def grantWaiters : List (Nat × LockMode) →
    List (Nat × LockMode) × List (Nat × LockMode)
  | [] => ([], [])
  | (h, LockMode.exclusive) :: rest => ([(h, LockMode.exclusive)], rest)
  | (h, LockMode.shared) :: rest =>
      ((h, LockMode.shared) ::
          rest.takeWhile (fun p => p.2 == LockMode.shared),
        rest.dropWhile fun p => p.2 == LockMode.shared)

/-- Modelled from the spec: the LockManager code is not under src/.
Release(handle) removes the handle from the holder-set; if the
holder-set becomes empty, the wait-queue head(s) are granted per
grantWaiters. -/
def release (s : LockState) (h : Nat) : LockState :=
  if (s.holders.filter fun p => p.1 != h).isEmpty then
    ⟨(grantWaiters s.waiters).1, (grantWaiters s.waiters).2⟩
  else ⟨s.holders.filter fun p => p.1 != h, s.waiters⟩

/-- LockOp is one step of a TryLock/Release sequence on the node. -/
inductive LockOp where
  | tryLockOp (h : Nat) (m : LockMode)
  | releaseOp (h : Nat)
deriving Repr, DecidableEq

/-- lockStep applies one TryLock or Release operation to the lock
state. -/
def lockStep (s : LockState) (op : LockOp) : LockState :=
  match op with
  | LockOp.tryLockOp h m => (tryLock s h m).2
  | LockOp.releaseOp h => release s h

/-- runLockOps applies a sequence of TryLock/Release operations. -/
def runLockOps : LockState → List LockOp → LockState
  | s, [] => s
  | s, op :: ops => runLockOps (lockStep s op) ops

/-- exclusiveAlone states the mode-exclusivity invariant: whenever an
EXCLUSIVE holder is present, the holder-set has at most one member,
so the holder-set is never mixed-mode and an EXCLUSIVE holder is
never alongside any other holder. -/
def exclusiveAlone (s : LockState) : Prop :=
  ∀ p ∈ s.holders, p.2 = LockMode.exclusive → s.holders.length ≤ 1

theorem tryLock_preserves_exclusiveAlone (s : LockState) (h : Nat)
    (m : LockMode) (hs : exclusiveAlone s) :
    exclusiveAlone (tryLock s h m).2 := by
  unfold tryLock
  split
  · exact hs
  · split
    · intro p hp _
      simp at hp
      subst hp
      simp
    · split
      · rename_i hempty hshared
        intro p hp hex
        rcases List.mem_append.mp hp with hin | hlast
        · have : p.2 = LockMode.shared := by
            have := List.all_eq_true.mp
              ((Bool.and_eq_true _ _).mp hshared).2 p hin
            simpa using this
          rw [hex] at this
          cases this
        · simp at hlast
          rw [hlast] at hex
          simp at hex
      · exact hs

theorem grantWaiters_exclusiveAlone (w : List (Nat × LockMode)) :
    ∀ p ∈ (grantWaiters w).1, p.2 = LockMode.exclusive →
      (grantWaiters w).1.length ≤ 1 := by
  match w with
  | [] => intro p hp; simp [grantWaiters] at hp
  | (h, LockMode.exclusive) :: rest =>
      intro p hp _
      simp [grantWaiters] at hp ⊢
  | (h, LockMode.shared) :: rest =>
      intro p hp hex
      simp only [grantWaiters, List.mem_cons] at hp
      rcases hp with hhead | htail
      · rw [hhead] at hex
        cases hex
      · have hsh := List.mem_takeWhile_imp htail
        simp at hsh
        rw [hex] at hsh
        cases hsh

theorem release_preserves_exclusiveAlone (s : LockState) (h : Nat)
    (hs : exclusiveAlone s) : exclusiveAlone (release s h) := by
  unfold release
  split
  · exact grantWaiters_exclusiveAlone s.waiters
  · intro p hp hex
    have hmem : p ∈ s.holders := List.mem_of_mem_filter hp
    calc (s.holders.filter fun p => p.1 != h).length
        ≤ s.holders.length := s.holders.length_filter_le _
      _ ≤ 1 := hs p hmem hex

theorem lockStep_preserves_exclusiveAlone (s : LockState) (op : LockOp)
    (hs : exclusiveAlone s) : exclusiveAlone (lockStep s op) := by
  cases op with
  | tryLockOp h m => exact tryLock_preserves_exclusiveAlone s h m hs
  | releaseOp h => exact release_preserves_exclusiveAlone s h hs

theorem runLockOps_preserves_exclusiveAlone (ops : List LockOp)
    (s : LockState) (hs : exclusiveAlone s) :
    exclusiveAlone (runLockOps s ops) := by
  induction ops generalizing s with
  | nil => exact hs
  | cons op ops ih =>
      exact ih (lockStep s op) (lockStep_preserves_exclusiveAlone s op hs)

/-- C5: for every sequence of TryLock/Release operations on a node
starting from the UNLOCKED state, the holder-set never simultaneously
contains an EXCLUSIVE holder alongside any other holder: it is never
mixed-mode and an EXCLUSIVE holder-set has at most one member. -/
theorem lock_never_mixed_mode (ops : List LockOp) :
    exclusiveAlone (runLockOps unlockedLock ops) :=
  runLockOps_preserves_exclusiveAlone ops unlockedLock
    (fun p hp _ => by simp [unlockedLock] at hp)

/-- SessionState is the liveness state of a session: CONNECTED,
EXPIRED or DESTROYED. -/
inductive SessionState where
  | connected
  | expired
  | destroyed
deriving Repr, DecidableEq

/-- SessionEntry is one session's record: its liveness state and its
lease deadline. -/
structure SessionEntry where
  state : SessionState
  deadline : Nat
deriving Repr, DecidableEq

/-- SMState is the SessionManager state: the session table (id to
entry) and the next fresh session id; every allocated id is below
nextId. -/
structure SMState where
  sessions : List (Nat × SessionEntry)
  nextId : Nat
deriving Repr, DecidableEq

/-- lookupSession finds the entry of a session id in the table. -/
def lookupSession (s : SMState) (sid : Nat) : Option SessionEntry :=
  (s.sessions.find? fun p => p.1 == sid).map fun p => p.2

/-- stateAt is the liveness state recorded for a session id, if the
id is in the table. -/
def stateAt (s : SMState) (sid : Nat) : Option SessionState :=
  (lookupSession s sid).map fun e => e.state

/-- Modelled from the spec: the SessionManager code is not under
src/.  CreateSession allocates a new session with state CONNECTED and
a fresh lease deadline, under a fresh id. -/
def createSession (s : SMState) (now leaseTimeout : Nat) : Nat × SMState :=
  (s.nextId,
    ⟨(s.nextId, ⟨SessionState.connected, now + leaseTimeout⟩) :: s.sessions,
      s.nextId + 1⟩)

/-- KeepaliveResult is the result of a Keepalive: OK or EXPIRED. -/
inductive KeepaliveResult where
  | ok
  | expired
deriving Repr, DecidableEq

/-- Modelled from the spec: Keepalive(session_id) refreshes the lease
deadline (from the processing time) if the session is CONNECTED and
returns OK; it returns EXPIRED, leaving the table unchanged, if the
session is not found or not CONNECTED. -/
def keepalive (s : SMState) (sid now leaseTimeout : Nat) :
    KeepaliveResult × SMState :=
  if stateAt s sid = some SessionState.connected then
    (KeepaliveResult.ok,
      { s with sessions := s.sessions.map fun p =>
          if p.1 == sid then (p.1, ⟨p.2.state, now + leaseTimeout⟩)
          else p })
  else (KeepaliveResult.expired, s)

/-- Modelled from the spec: ExpireCheck scans sessions whose lease
deadline has passed and transitions them CONNECTED to EXPIRED. -/
def expireCheck (s : SMState) (now : Nat) : SMState :=
  { s with sessions := s.sessions.map fun p =>
      if p.2.state = SessionState.connected ∧ p.2.deadline < now then
        (p.1, ⟨SessionState.expired, p.2.deadline⟩)
      else p }

/-- Modelled from the spec: DestroySession(session_id) is the explicit
client-initiated teardown; the session's state becomes DESTROYED. -/
def destroySession (s : SMState) (sid : Nat) : SMState :=
  { s with sessions := s.sessions.map fun p =>
      if p.1 == sid then (p.1, ⟨SessionState.destroyed, p.2.deadline⟩)
      else p }

/-- OpenResult is the session-relevant outcome of an Open RPC. -/
inductive OpenResult where
  | ok
  | sessionInvalid
  | nodeNotFound
deriving Repr, DecidableEq

/-- Modelled from the spec: Open(session_id, path, mode) fails with
SessionInvalid if the session is not CONNECTED; otherwise it fails
with NodeNotFound when the path does not exist (and mode has no
create semantics), else succeeds.  Node existence is abstracted as a
boolean. -/
def openSession (s : SMState) (sid : Nat) (nodeExists : Bool) : OpenResult :=
  if stateAt s sid = some SessionState.connected then
    if nodeExists then OpenResult.ok else OpenResult.nodeNotFound
  else OpenResult.sessionInvalid

/-- LockReqResult is the session-relevant outcome of a Lock RPC. -/
inductive LockReqResult where
  | accepted
  | sessionInvalid
deriving Repr, DecidableEq

/-- Modelled from the spec: a Lock request arrives through a handle
owned by a session; no operation may succeed against a session that
is not CONNECTED, so the request is accepted for processing only when
the owning session is CONNECTED. -/
def lockSession (s : SMState) (sid : Nat) : LockReqResult :=
  if stateAt s sid = some SessionState.connected then LockReqResult.accepted
  else LockReqResult.sessionInvalid

/-- SessionOp is one state-mutating SessionManager operation. -/
inductive SessionOp where
  | createOp (now leaseTimeout : Nat)
  | keepaliveOp (sid now leaseTimeout : Nat)
  | expireOp (now : Nat)
  | destroyOp (sid : Nat)
deriving Repr, DecidableEq

/-- sessionStep applies one SessionManager operation to the state. -/
def sessionStep (s : SMState) (op : SessionOp) : SMState :=
  match op with
  | SessionOp.createOp now lt => (createSession s now lt).2
  | SessionOp.keepaliveOp sid now lt => (keepalive s sid now lt).2
  | SessionOp.expireOp now => expireCheck s now
  | SessionOp.destroyOp sid => destroySession s sid

/-- runSessionOps applies a sequence of SessionManager operations. -/
def runSessionOps : SMState → List SessionOp → SMState
  | s, [] => s
  | s, op :: ops => runSessionOps (sessionStep s op) ops

/-- sessionDead states that a session id can never again be observed
CONNECTED: it is below the fresh-id counter and its recorded state,
if any, is not CONNECTED. -/
def sessionDead (s : SMState) (sid : Nat) : Prop :=
  sid < s.nextId ∧ stateAt s sid ≠ some SessionState.connected

theorem find?_map_keyfix (l : List (Nat × SessionEntry))
    (f : Nat × SessionEntry → Nat × SessionEntry)
    (hf : ∀ p, (f p).1 = p.1) (sid : Nat) :
    (l.map f).find? (fun p => p.1 == sid) =
      (l.find? (fun p => p.1 == sid)).map f := by
  induction l with
  | nil => rfl
  | cons a l ih =>
      by_cases h : (a.1 == sid) = true
      · have h' : ((f a).1 == sid) = true := by rw [hf a]; exact h
        rw [List.map_cons,
          @List.find?_cons_of_pos _ (fun p => p.1 == sid) (f a) (l.map f) h',
          @List.find?_cons_of_pos _ (fun p => p.1 == sid) a l h]
        rfl
      · have h' : ¬((f a).1 == sid) = true := by rw [hf a]; exact h
        rw [List.map_cons,
          @List.find?_cons_of_neg _ (fun p => p.1 == sid) (f a) (l.map f) h',
          @List.find?_cons_of_neg _ (fun p => p.1 == sid) a l h]
        exact ih

theorem stateAt_mk (l : List (Nat × SessionEntry)) (n sid : Nat) :
    stateAt ⟨l, n⟩ sid =
      (l.find? (fun p => p.1 == sid)).map fun p => p.2.state := by
  unfold stateAt lookupSession
  show ((l.find? (fun p => p.1 == sid)).map fun p => p.2).map
      (fun e => e.state) = _
  cases l.find? (fun p => p.1 == sid) <;> rfl

theorem stateAt_map (l : List (Nat × SessionEntry)) (n : Nat)
    (f : Nat × SessionEntry → Nat × SessionEntry)
    (hf : ∀ p, (f p).1 = p.1) (sid : Nat) :
    stateAt ⟨l.map f, n⟩ sid =
      (l.find? (fun p => p.1 == sid)).map fun p => (f p).2.state := by
  unfold stateAt lookupSession
  show (((l.map f).find? (fun p => p.1 == sid)).map fun p => p.2).map
      (fun e => e.state) = _
  rw [find?_map_keyfix l f hf sid]
  cases l.find? (fun p => p.1 == sid) <;> rfl

theorem sessionDead_map (l : List (Nat × SessionEntry)) (n : Nat)
    (f : Nat × SessionEntry → Nat × SessionEntry)
    (hf1 : ∀ p, (f p).1 = p.1)
    (hf2 : ∀ p, p.2.state ≠ SessionState.connected →
      (f p).2.state ≠ SessionState.connected)
    (sid : Nat) (hd : sessionDead ⟨l, n⟩ sid) :
    sessionDead ⟨l.map f, n⟩ sid := by
  refine ⟨hd.1, ?_⟩
  have hd2 := hd.2
  rw [stateAt_mk] at hd2
  rw [stateAt_map l n f hf1]
  cases hl : l.find? (fun p => p.1 == sid) with
  | none => simp
  | some p =>
      rw [hl] at hd2
      rw [Option.map_some'] at hd2 ⊢
      intro hc
      exact hf2 p (fun hps => hd2 (by rw [hps])) (Option.some.inj hc)

theorem sessionStep_preserves_dead (s : SMState) (op : SessionOp)
    (sid : Nat) (hd : sessionDead s sid) :
    sessionDead (sessionStep s op) sid := by
  obtain ⟨l, n⟩ := s
  have hlt : sid < n := hd.1
  cases op with
  | createOp now lt =>
      refine ⟨Nat.lt_succ_of_lt hd.1, ?_⟩
      have hd2 := hd.2
      rw [stateAt_mk] at hd2
      show stateAt ⟨(n, ⟨SessionState.connected, now + lt⟩) :: l, n + 1⟩ sid ≠
        some SessionState.connected
      rw [stateAt_mk, @List.find?_cons_of_neg _ (fun p => p.1 == sid)
        (n, ⟨SessionState.connected, now + lt⟩) l (by simp; omega)]
      exact hd2
  | keepaliveOp sid' now lt =>
      show sessionDead (keepalive ⟨l, n⟩ sid' now lt).2 sid
      unfold keepalive
      split
      · exact sessionDead_map l n _ (fun p => by split <;> rfl)
          (fun p hp => by split <;> exact hp) sid hd
      · exact hd
  | expireOp now =>
      show sessionDead (expireCheck ⟨l, n⟩ now) sid
      exact sessionDead_map l n _ (fun p => by split <;> rfl)
        (fun p hp => by
          split
          · rename_i hcond
            exact absurd hcond.1 hp
          · exact hp) sid hd
  | destroyOp sid' =>
      show sessionDead (destroySession ⟨l, n⟩ sid') sid
      exact sessionDead_map l n _ (fun p => by split <;> rfl)
        (fun p hp => by
          split
          · simp
          · exact hp) sid hd

theorem runSessionOps_preserves_dead (ops : List SessionOp) (s : SMState)
    (sid : Nat) (hd : sessionDead s sid) :
    sessionDead (runSessionOps s ops) sid := by
  induction ops generalizing s with
  | nil => exact hd
  | cons op ops ih =>
      exact ih (sessionStep s op) (sessionStep_preserves_dead s op sid hd)

theorem sessionDead_open (s : SMState) (sid : Nat) (ne : Bool)
    (hd : sessionDead s sid) :
    openSession s sid ne = OpenResult.sessionInvalid := by
  unfold openSession
  rw [if_neg hd.2]

theorem sessionDead_lock (s : SMState) (sid : Nat)
    (hd : sessionDead s sid) :
    lockSession s sid = LockReqResult.sessionInvalid := by
  unfold lockSession
  rw [if_neg hd.2]

theorem sessionDead_keepalive (s : SMState) (sid now lt : Nat)
    (hd : sessionDead s sid) :
    (keepalive s sid now lt).1 = KeepaliveResult.expired := by
  unfold keepalive
  rw [if_neg hd.2]

/-- C6: once ExpireCheck transitions a session from CONNECTED to
EXPIRED, no later sequence of SessionManager operations makes an
Open, Lock, or Keepalive against that session id succeed: Open fails
with SessionInvalid, Lock is rejected with SessionInvalid, and
Keepalive returns EXPIRED. -/
theorem session_expiry_absorbing (s₀ : SMState) (sid now : Nat)
    (ops : List SessionOp) (now' lt : Nat) (ne : Bool)
    (hids : ∀ p ∈ s₀.sessions, p.1 < s₀.nextId)
    (hconn : stateAt s₀ sid = some SessionState.connected)
    (hexp : stateAt (expireCheck s₀ now) sid = some SessionState.expired) :
    openSession (runSessionOps (expireCheck s₀ now) ops) sid ne =
      OpenResult.sessionInvalid ∧
    lockSession (runSessionOps (expireCheck s₀ now) ops) sid =
      LockReqResult.sessionInvalid ∧
    (keepalive (runSessionOps (expireCheck s₀ now) ops) sid now' lt).1 =
      KeepaliveResult.expired := by
  have hlt : sid < s₀.nextId := by
    obtain ⟨l, n⟩ := s₀
    rw [stateAt_mk] at hconn
    cases hl : l.find? (fun p => p.1 == sid) with
    | none => rw [hl] at hconn; cases hconn
    | some p =>
        have hmem : p ∈ l := List.mem_of_find?_eq_some hl
        have hkey := List.find?_some hl
        have hkey' : p.1 = sid := by simpa using hkey
        have := hids p hmem
        simp only at this ⊢
        omega
  have hdead : sessionDead (expireCheck s₀ now) sid := by
    refine ⟨by simpa [expireCheck] using hlt, ?_⟩
    rw [hexp]
    simp
  have hdead' := runSessionOps_preserves_dead ops (expireCheck s₀ now) sid hdead
  exact ⟨sessionDead_open _ sid ne hdead', sessionDead_lock _ sid hdead',
    sessionDead_keepalive _ sid now' lt hdead'⟩

/-- Witness for C6: session 0 with deadline 5 is CONNECTED; an
ExpireCheck at time 10 transitions it to EXPIRED; after a later
CreateSession, Keepalive, ExpireCheck and DestroySession, an Open
still fails with SessionInvalid, a Lock is still rejected, and a
Keepalive still returns EXPIRED. -/
theorem session_expiry_absorbing_witness :
    openSession
        (runSessionOps (expireCheck ⟨[(0, ⟨SessionState.connected, 5⟩)], 1⟩ 10)
          [SessionOp.createOp 20 30, SessionOp.keepaliveOp 0 20 30,
            SessionOp.expireOp 60, SessionOp.destroyOp 0]) 0 true =
      OpenResult.sessionInvalid ∧
    lockSession
        (runSessionOps (expireCheck ⟨[(0, ⟨SessionState.connected, 5⟩)], 1⟩ 10)
          [SessionOp.createOp 20 30, SessionOp.keepaliveOp 0 20 30,
            SessionOp.expireOp 60, SessionOp.destroyOp 0]) 0 =
      LockReqResult.sessionInvalid ∧
    (keepalive
        (runSessionOps (expireCheck ⟨[(0, ⟨SessionState.connected, 5⟩)], 1⟩ 10)
          [SessionOp.createOp 20 30, SessionOp.keepaliveOp 0 20 30,
            SessionOp.expireOp 60, SessionOp.destroyOp 0]) 0 70 30).1 =
      KeepaliveResult.expired :=
  session_expiry_absorbing ⟨[(0, ⟨SessionState.connected, 5⟩)], 1⟩ 0 10
    [SessionOp.createOp 20 30, SessionOp.keepaliveOp 0 20 30,
      SessionOp.expireOp 60, SessionOp.destroyOp 0] 70 30 true
    (by decide) (by decide) (by decide)
